import Mathlib

/-
Verification of the cut-game core: a shallow embedding of the rope/cut,
score/combo, spawn/difficulty, physics-adapter and gesture-state-machine
logic of the repository, together with theorems settling the specification
claims. JavaScript numbers are modelled by exact rationals, wall-clock
millisecond timestamps by integers, and the external physics/render
collaborators (Rapier, three.js) by explicit state (joint presence sets,
mesh geometry, rays).
-/

/-- Treasure tier, from types/game.ts (TreasureConfig.type). -/
inductive TreasureType where
  | gold
  | silver
  | bronze
deriving DecidableEq, Repr

/-- TreasureConfig from types/game.ts. -/
structure TreasureConfig where
  type : TreasureType
  score : ℚ
  mass : ℚ
  size : ℚ
deriving DecidableEq, Repr

/-- getTreasureConfig from Treasure.ts: fixed per-tier values. -/
def getTreasureConfig : TreasureType → TreasureConfig
  | .gold => { type := .gold, score := 100, mass := 2, size := 4/10 }
  | .silver => { type := .silver, score := 50, mass := 3/2, size := 35/100 }
  | .bronze => { type := .bronze, score := 30, mass := 1, size := 3/10 }

/-- ScoreData from types/score.ts. -/
structure ScoreData where
  current : ℤ
  combo : ℕ
  maxCombo : ℕ
  totalTreasures : ℕ
deriving DecidableEq, Repr

/-- ScoreEvent from types/score.ts. -/
structure ScoreEvent where
  points : ℤ
  treasureType : TreasureType
  combo : ℕ
  timestamp : ℤ
deriving DecidableEq, Repr

namespace ScoreManager

/-- comboTimeout from ScoreManager.ts line 14: 3000 milliseconds. -/
def comboTimeout : ℤ := 3000

/-- The mutable fields of the ScoreManager class (scoreData, events,
lastCutTime). Timestamps are Date.now() milliseconds, modelled as integers
passed in explicitly. -/
structure State where
  scoreData : ScoreData
  events : List ScoreEvent
  lastCutTime : ℤ
deriving DecidableEq, Repr

/-- ScoreManager.reset: zeroed score data, empty history, lastCutTime 0.
ScoreManager.init calls reset, so this is also the session-start state. -/
def resetState : State :=
  { scoreData := { current := 0, combo := 0, maxCombo := 0, totalTreasures := 0 },
    events := [],
    lastCutTime := 0 }

/-- ScoreManager.addScore (lines 27-67). The wall-clock read Date.now() is
the explicit currentTime argument; everything else follows the source:
combo increments when currentTime - lastCutTime is at most comboTimeout
and lastCutTime is positive, else resets to 1; points are
floor(baseScore * (1 + (combo-1) * 0.1)). -/
def addScore (treasure : TreasureConfig) (currentTime : ℤ) (s : State) :
    State × ScoreEvent :=
  let combo :=
    if currentTime - s.lastCutTime ≤ comboTimeout ∧ 0 < s.lastCutTime then
      s.scoreData.combo + 1
    else 1
  let maxCombo := if combo > s.scoreData.maxCombo then combo else s.scoreData.maxCombo
  let comboMultiplier : ℚ := 1 + ((combo : ℚ) - 1) * (1/10)
  let points : ℤ := Int.floor (treasure.score * comboMultiplier)
  let event : ScoreEvent :=
    { points := points, treasureType := treasure.type, combo := combo,
      timestamp := currentTime }
  ({ scoreData :=
      { current := s.scoreData.current + points,
        combo := combo,
        maxCombo := maxCombo,
        totalTreasures := s.scoreData.totalTreasures + 1 },
     events := s.events ++ [event],
     lastCutTime := currentTime },
   event)

/-- ScoreManager.resetCombo (lines 79-82): combo to 0, all else kept. -/
def resetCombo (s : State) : State :=
  { s with scoreData := { s.scoreData with combo := 0 } }

/-- ScoreManager.update (lines 102-112): per-frame combo-timeout check.
Resets combo to 0 when combo is positive and strictly more than
comboTimeout has elapsed since the last cut. -/
def update (currentTime : ℤ) (s : State) : State :=
  if 0 < s.scoreData.combo ∧ comboTimeout < currentTime - s.lastCutTime then
    resetCombo s
  else s

end ScoreManager

/-- SpawnConfig from types/game.ts (spawn intervals in seconds, speeds in
world units per second). -/
structure SpawnConfig where
  initialInterval : ℚ
  minInterval : ℚ
  minSpeed : ℚ
  maxSpeed : ℚ
deriving DecidableEq, Repr

/-- DifficultyConfig from types/game.ts. -/
structure DifficultyConfig where
  totalDuration : ℚ
deriving DecidableEq, Repr

namespace SpawnManager

/-- SpawnManager.getDifficultyMultiplier (SpawnManager.ts lines 86-97): 0
when the difficulty config is absent, else min(1, elapsed/totalDuration).
The division is exact rational division; at the inputs used in the
theorems below (nonzero totalDuration, small literals) it coincides with
the IEEE double division the source performs. -/
def getDifficultyMultiplier (difficultyConfig : Option DifficultyConfig)
    (elapsedTime : ℚ) : ℚ :=
  match difficultyConfig with
  | none => 0
  | some dc => min 1 (elapsedTime / dc.totalDuration)

/-- SpawnManager.getSpawnInterval (lines 102-115): 3.0 when unconfigured,
else linear interpolation from initialInterval down to minInterval. -/
def getSpawnInterval (config : Option SpawnConfig)
    (difficultyConfig : Option DifficultyConfig) (elapsedTime : ℚ) : ℚ :=
  match config with
  | none => 3
  | some c =>
      c.initialInterval -
        (c.initialInterval - c.minInterval) *
          getDifficultyMultiplier difficultyConfig elapsedTime

/-- SpawnManager.getSpeed (lines 120-133): 1.0 when unconfigured, else
linear interpolation from minSpeed up to maxSpeed. -/
def getSpeed (config : Option SpawnConfig)
    (difficultyConfig : Option DifficultyConfig) (elapsedTime : ℚ) : ℚ :=
  match config with
  | none => 1
  | some c =>
      c.minSpeed +
        (c.maxSpeed - c.minSpeed) *
          getDifficultyMultiplier difficultyConfig elapsedTime

end SpawnManager

/-- The nullable fields of the Physics class (Physics.ts lines 6-7) that
decide the not-initialized error paths. The world, when present, is
abstracted to its step count; RAPIER, when loaded, to a unit token. -/
structure PhysicsState where
  world : Option ℕ
  rapier : Option Unit
deriving DecidableEq, Repr

namespace Physics

/-- State of a freshly constructed Physics instance: init has not run, so
world and RAPIER are both null. -/
def mkPhysics : PhysicsState := { world := none, rapier := none }

/-- Physics.step (lines 47-54): with no world it logs a console warning
and returns normally without stepping; otherwise it advances the world. -/
def step (s : PhysicsState) : Except String PhysicsState :=
  match s.world with
  | none => .ok s
  | some n => .ok { s with world := some (n + 1) }

/-- Physics.createRigidBody (lines 77-83): throws when the world is not
initialized. The created body itself is external and elided. -/
def createRigidBody (s : PhysicsState) : Except String Unit :=
  match s.world with
  | none => .error "[Physics] World not initialized"
  | some _ => .ok ()

/-- Physics.createCollider (lines 88-97): throws when the world is not
initialized. -/
def createCollider (s : PhysicsState) : Except String Unit :=
  match s.world with
  | none => .error "[Physics] World not initialized"
  | some _ => .ok ()

/-- Physics.getWorld (lines 126-131): throws when the world is not
initialized. -/
def getWorld (s : PhysicsState) : Except String ℕ :=
  match s.world with
  | none => .error "[Physics] World not initialized"
  | some w => .ok w

/-- Physics.getRAPIER (lines 136-141): throws when RAPIER is not
initialized. -/
def getRAPIER (s : PhysicsState) : Except String Unit :=
  match s.rapier with
  | none => .error "[Physics] RAPIER not initialized"
  | some r => .ok r

end Physics

/-- GestureType from the gesture type declarations (MediaPipe category
names plus None for no hand). -/
inductive GestureType where
  | None
  | Victory
  | Closed_Fist
  | Open_Palm
  | Pointing_Up
  | Thumb_Up
  | Thumb_Down
  | ILoveYou
deriving DecidableEq, Repr, Fintype

/-- Handedness from the tracking type declarations. -/
inductive Handedness where
  | left
  | right
deriving DecidableEq, Repr

/-- The callbacks a GestureTracker can fire while processing one frame, in
firing order (GestureTracker.ts lines 240-290). -/
inductive GestureCallback where
  | onGestureChange (handedness : Handedness) (gesture previousGesture : GestureType)
  | onVictoryDetected (handedness : Handedness)
  | onVCloseAction (handedness : Handedness)
deriving DecidableEq, Repr

namespace GestureTracker

/-- GestureTracker.handleGestureChange (lines 240-290): always fires a
gesture-change event; additionally fires onVictoryDetected when the new
gesture is Victory, and on the Victory-to-non-Victory edge fires the
onVCloseAction callback followed by a second gesture-change event for the
v-close action. -/
def handleGestureChange (handedness : Handedness)
    (newGesture previousGesture : GestureType) : List GestureCallback :=
  [.onGestureChange handedness newGesture previousGesture]
  ++ (if newGesture = .Victory then [.onVictoryDetected handedness] else [])
  ++ (if previousGesture = .Victory ∧ newGesture ≠ .Victory then
        [.onVCloseAction handedness, .onGestureChange handedness newGesture previousGesture]
      else [])

/-- The action of GestureTracker.onResults (lines 178-235) on one hand for
one frame. The per-hand state is the previousGestures entry, with a
missing entry read as None (line 202 and the guard on line 227 treat the
two alike). The input is the classified gesture when the hand was
detected this frame, or none when it was not. Detected (lines 183-220):
fire handleGestureChange on a changed gesture and record the new one.
Undetected (lines 223-234): force a transition to None exactly when the
stored gesture is not already None. Returns the new stored gesture and
the fired callbacks. -/
def onResultsHand (handedness : Handedness) (previousGesture : GestureType)
    (detected : Option GestureType) : GestureType × List GestureCallback :=
  match detected with
  | some gestureType =>
      if gestureType ≠ previousGesture then
        (gestureType, handleGestureChange handedness gestureType previousGesture)
      else
        (gestureType, [])
  | none =>
      if previousGesture ≠ .None then
        (.None, handleGestureChange handedness .None previousGesture)
      else
        (previousGesture, [])

/-- Number of cut-action (onVCloseAction) callbacks for a given hand in a
callback list. -/
def countVClose (handedness : Handedness) (cs : List GestureCallback) : ℕ :=
  cs.count (.onVCloseAction handedness)

/-- The action of GestureTracker.onResults on both hands at once: each
hand's previousGestures entry is updated from that hand's own detection
result alone (the loops on lines 184-220 and 224-234 key strictly by
handedness). -/
def onResultsBoth (prevLeft prevRight : GestureType)
    (detectedLeft detectedRight : Option GestureType) :
    (GestureType × List GestureCallback) × (GestureType × List GestureCallback) :=
  (onResultsHand .left prevLeft detectedLeft,
   onResultsHand .right prevRight detectedRight)

end GestureTracker

/-- A 3D point with exact rational coordinates. -/
structure Vec3 where
  x : ℚ
  y : ℚ
  z : ℚ
deriving DecidableEq, Repr

/-- World-space placement of one rope segment mesh: the cylinder created
in the rope factory (CylinderGeometry with the config radius and segment
length, axis along world y at creation). -/
structure SegmentGeom where
  center : Vec3
  radius : ℚ
  halfLength : ℚ
deriving DecidableEq, Repr

/-- Membership of a point in the solid vertical cylinder occupied by a
segment mesh. -/
def pointInSegmentMesh (q : Vec3) (s : SegmentGeom) : Prop :=
  |q.y - s.center.y| ≤ s.halfLength ∧
    (q.x - s.center.x) ^ 2 + (q.z - s.center.z) ^ 2 ≤ s.radius ^ 2

/-- The ray the source builds for a cut query (part_003 lines 499-512):
worldToScreen projects the query point through the render camera and
setFromCamera unprojects that screen position, so the resulting ray
starts at the camera and passes through the query point. The external
raycaster reports an intersection with a segment mesh exactly when this
ray meets the solid cylinder. -/
def rayThroughPointHits (camera p : Vec3) (s : SegmentGeom) : Prop :=
  ∃ t : ℚ, 0 ≤ t ∧
    pointInSegmentMesh
      { x := camera.x + t * (p.x - camera.x),
        y := camera.y + t * (p.y - camera.y),
        z := camera.z + t * (p.z - camera.z) } s

/-- Squared distance from a point to the axis segment of a vertical
capsule/cylinder. -/
def distSqToSegmentAxis (p : Vec3) (s : SegmentGeom) : ℚ :=
  let dy :=
    if p.y < s.center.y - s.halfLength then s.center.y - s.halfLength - p.y
    else if s.center.y + s.halfLength < p.y then p.y - (s.center.y + s.halfLength)
    else 0
  (p.x - s.center.x) ^ 2 + dy ^ 2 + (p.z - s.center.z) ^ 2

/-- Modelled from the spec: the sphere-at-point hit test of a single
segment (the body of RopeFactory.checkHit is not among the provided
sources; only its caller at src/src/components/game/GameManager.ts line
217, which passes hitRadius 0.5, is). Per the spec a segment is hit
exactly when its capsule footprint intersects the sphere of the given
radius centered at the query point. -/
def sphereHitSegment (point : Vec3) (hitRadius : ℚ) (s : SegmentGeom) : Prop :=
  distSqToSegmentAxis point s ≤ (hitRadius + s.radius) ^ 2

instance (point : Vec3) (hitRadius : ℚ) (s : SegmentGeom) :
    Decidable (sphereHitSegment point hitRadius s) := by
  unfold sphereHitSegment
  exact inferInstance

/-- Modelled from the spec: the sphere-at-point hit test over a segment
list, returning the first intersected segment's index. -/
def sphereHitSegmentsIdx (point : Vec3) (hitRadius : ℚ) :
    List SegmentGeom → Option ℕ
  | [] => none
  | s :: rest =>
      if sphereHitSegment point hitRadius s then some 0
      else (sphereHitSegmentsIdx point hitRadius rest).map (· + 1)

/-- Rope travel direction, from types/game.ts. -/
inductive Direction where
  | left
  | right
deriving DecidableEq, Repr

/-- RopeConfig from types/game.ts. -/
structure RopeConfig where
  segmentCount : ℕ
  segmentLength : ℚ
  segmentRadius : ℚ
  mass : ℚ
deriving DecidableEq, Repr

/-- Joints produced by connectRopeSegments (part_003 lines 79-112), as
pairs of chain-node indices: node 0 is the anchor and node k+1 is segment
k. One revolute joint links the anchor to segment 0 when at least one
segment exists, then one joint links each adjacent segment pair. -/
def connectRopeSegments (segmentCount : ℕ) : List (ℕ × ℕ) :=
  (if 0 < segmentCount then [(0, 1)] else [])
    ++ (List.range (segmentCount - 1)).map (fun i => (i + 1, i + 2))

/-- The joint produced by attachTreasureToRope (part_003 lines 117-135):
it links the last segment (node segmentCount) to the treasure (node
segmentCount + 1). -/
def attachTreasureToRope (segmentCount : ℕ) : ℕ × ℕ :=
  (segmentCount, segmentCount + 1)

/-- Per-segment mesh placement from createRope (part_003 lines 30-71):
segment i is a cylinder of the config radius and length at
x = startPos.x, z = startPos.z, with y walked down by segmentLength per
segment and recentered by half a length. -/
def createRopeSegmentGeoms (startPos : Vec3) (config : RopeConfig) :
    List SegmentGeom :=
  (List.range config.segmentCount).map (fun (i : ℕ) =>
    { center :=
        { x := startPos.x,
          y := startPos.y - (((i : ℚ)) + 1) * config.segmentLength
                 + config.segmentLength / 2,
          z := startPos.z },
      radius := config.segmentRadius,
      halfLength := config.segmentLength / 2 })

/-- RopeWithTreasure from types/game.ts plus the isCut flag added in the
part_003 revision. The segments field carries each segment mesh's world
placement; joints is the joint array as built; worldJoints records which
of this rope's joints are still present in the external physics world
(all of them at build time, one fewer after a cut). -/
structure RopeWithTreasure where
  id : ℕ
  segments : List SegmentGeom
  joints : List (ℕ × ℕ)
  worldJoints : Finset ℕ
  direction : Direction
  speed : ℚ
  anchorX : ℚ
  treasure : TreasureConfig
  isCut : Bool
deriving DecidableEq

/-- CutResult from types/game.ts. -/
structure CutResult where
  success : Bool
  ropeId : ℕ
  segmentIndex : ℕ
  treasure : TreasureConfig
deriving DecidableEq

namespace GameManager

/-- defaultRopeConfig (part_003 lines 192-197). -/
def defaultRopeConfig : RopeConfig :=
  { segmentCount := 5, segmentLength := 3/10, segmentRadius := 1/20, mass := 1/2 }

/-- GameManager.spawnRopeWithTreasure (part_003 lines 318-404): start at
x = -8 or 8 by direction, y = 3, z = 0; build the segment chain, connect
it to the anchor, create the treasure and attach it, pushing its joint
onto the joint array; record the assembly with speed 1 and isCut false.
The random treasure choice and the id counter are the explicit
treasureType and id arguments; the rope config is a parameter of the
factory (the manager passes defaultRopeConfig). -/
def spawnRopeWithTreasure (id : ℕ) (direction : Direction)
    (treasureType : TreasureType) (config : RopeConfig) : RopeWithTreasure :=
  let startX : ℚ := if direction = .left then -8 else 8
  let startPos : Vec3 := { x := startX, y := 3, z := 0 }
  let segments := createRopeSegmentGeoms startPos config
  let joints :=
    connectRopeSegments config.segmentCount ++ [attachTreasureToRope config.segmentCount]
  { id := id, segments := segments, joints := joints,
    worldJoints := Finset.range joints.length,
    direction := direction, speed := 1, anchorX := startX,
    treasure := getTreasureConfig treasureType, isCut := false }

/-- The rope loop shared by GameManager.cutRopeAtPoint (part_003 lines
515-556) and GameManager.handleClick (lines 577-609): iterate the
assemblies in insertion order (Map iteration order); skip any rope whose
isCut flag is set; run the frame's hit test on the rest; on a hit whose
joint index (equal to the segment index) is within the joint array,
remove that joint from the physics world (cutRopeJoint), mark the rope
cut, and return a CutResult; otherwise move on to the next rope. The hit
argument abstracts checkRopeHitRaycast applied to this query's raycaster. -/
def cutRopesFirstHit (hit : RopeWithTreasure → Option ℕ) :
    List RopeWithTreasure → List RopeWithTreasure × Option CutResult
  | [] => ([], none)
  | rope :: rest =>
    if rope.isCut then
      let res := cutRopesFirstHit hit rest
      (rope :: res.1, res.2)
    else
      match hit rope with
      | some segmentIndex =>
          if segmentIndex < rope.joints.length then
            ({ rope with
                worldJoints := rope.worldJoints.erase segmentIndex,
                isCut := true } :: rest,
             some { success := true, ropeId := rope.id,
                    segmentIndex := segmentIndex, treasure := rope.treasure })
          else
            let res := cutRopesFirstHit hit rest
            (rope :: res.1, res.2)
      | none =>
          let res := cutRopesFirstHit hit rest
          (rope :: res.1, res.2)

/-- GameManager.cutRopeAtPoint (part_003 lines 494-556): build the
camera ray for the query point (worldToScreen + setFromCamera, abstracted
into the hit function) and run the shared first-hit cut loop. -/
def cutRopeAtPoint (hit : Vec3 → RopeWithTreasure → Option ℕ) (point : Vec3)
    (ropes : List RopeWithTreasure) : List RopeWithTreasure × Option CutResult :=
  cutRopesFirstHit (hit point) ropes

/-- GameManager.handleVCloseAction (part_003 lines 690-735): with no
cached position for the triggering hand, log a warning and return with no
state change; otherwise resolve through cutRopeAtPoint at the cached
position (scoring is then driven by the returned CutResult). -/
def handleVCloseAction (hit : Vec3 → RopeWithTreasure → Option ℕ)
    (handPosition : Option Vec3) (ropes : List RopeWithTreasure) :
    List RopeWithTreasure × Option CutResult :=
  match handPosition with
  | none => (ropes, none)
  | some position => cutRopeAtPoint hit position ropes

/-- New anchor x of one rope in GameManager.update (part_003 lines
421-432): left-spawned ropes move rightward, right-spawned leftward, by
speed times the frame delta. -/
def moveRopeNewX (deltaTime : ℚ) (r : RopeWithTreasure) : ℚ :=
  if r.direction = .left then r.anchorX + r.speed * deltaTime
  else r.anchorX - r.speed * deltaTime

/-- The per-rope move-and-cull pass of GameManager.update (part_003 lines
421-438): advance each anchor laterally, then remove the rope (removeRope)
once the new x leaves the bounds, |newX| > 10, regardless of cut state. -/
def updateRopes (deltaTime : ℚ) (ropes : List RopeWithTreasure) :
    List RopeWithTreasure :=
  ropes.filterMap (fun r =>
    let newX := moveRopeNewX deltaTime r
    if 10 < |newX| then none else some { r with anchorX := newX })

end GameManager

/-- One hop along a rope's chain: some joint of the rope still present in
the physics world links nodes a and b (a joint links exactly the node
pair recorded in the joint array). -/
def ropeChainStep (r : RopeWithTreasure) (a b : ℕ) : Prop :=
  ∃ j ∈ r.worldJoints, ∃ hj : j < r.joints.length,
    r.joints.get ⟨j, hj⟩ = (a, b) ∨ r.joints.get ⟨j, hj⟩ = (b, a)

/-- Connectivity of two chain nodes through the joints still present in
the physics world. -/
def ropeReach (r : RopeWithTreasure) : ℕ → ℕ → Prop :=
  Relation.ReflTransGen (ropeChainStep r)

/-- One hop along an abstract chain whose joint j links nodes j and j+1,
restricted to a set of surviving joints. -/
def pathStep (S : Finset ℕ) (a b : ℕ) : Prop :=
  (a ∈ S ∧ b = a + 1) ∨ (b ∈ S ∧ a = b + 1)

/-- Reachability along the surviving joints of an abstract chain. -/
def pathReach (S : Finset ℕ) : ℕ → ℕ → Prop :=
  Relation.ReflTransGen (pathStep S)

/-- Correctness of a hit oracle with respect to the raycast the source
builds for a query point: on each rope of the scene, the oracle returns
none exactly when the camera ray through the point misses every segment
mesh of the rope, and any index it returns designates a segment that the
ray does hit. -/
def RayFaithfulAt (camera p : Vec3) (ropes : List RopeWithTreasure)
    (hit : RopeWithTreasure → Option ℕ) : Prop :=
  ∀ r ∈ ropes,
    (hit r = none ↔ ∀ s ∈ r.segments, ¬ rayThroughPointHits camera p s) ∧
    ∀ i, hit r = some i →
      ∃ hi : i < r.segments.length,
        rayThroughPointHits camera p (r.segments.get ⟨i, hi⟩)

/-- Camera position for the C10 scene (the render camera sits on the
positive z axis looking at the play plane z = 0). -/
def cameraC10 : Vec3 := { x := 0, y := 0, z := 5 }

/-- Cached hand position for the C10 scene, in the play plane. -/
def handPosC10 : Vec3 := { x := 0, y := 0, z := 0 }

/-- A segment mesh 3/10 world units away from the cached hand position:
inside the spec's 0.5-radius sphere, but off the camera ray through the
hand position. -/
def segC10 : SegmentGeom :=
  { center := { x := 3/10, y := 0, z := 0 }, radius := 1/20, halfLength := 3/20 }

/-- An uncut single-segment assembly (with its two joints intact) whose
segment sits at segC10: a reachable mid-swing pose of a spawned rope. -/
def ropeC10 : RopeWithTreasure :=
  { id := 0, segments := [segC10], joints := [(0, 1), (1, 2)],
    worldJoints := Finset.range 2, direction := .left, speed := 1,
    anchorX := 0, treasure := getTreasureConfig .gold, isCut := false }

/-- The oracle reporting the raycast result for the C10 scene: the camera
ray through the cached hand position misses the only segment, so every
rope reports no hit. -/
def rayMissOracle : Vec3 → RopeWithTreasure → Option ℕ := fun _ _ => none

/-- The assembly state after the shared cut loop severs joint i of a
freshly spawned assembly: that joint leaves the physics world and the
rope is flagged cut; nothing else changes. -/
def cutAssembly (id : ℕ) (dir : Direction) (tt : TreasureType)
    (config : RopeConfig) (i : ℕ) : RopeWithTreasure :=
  let r := GameManager.spawnRopeWithTreasure id dir tt config
  { r with worldJoints := r.worldJoints.erase i, isCut := true }

/-
Theorems settling the claims. Helper lemmas come first inside each group;
each claim is settled by the single theorem named after it.
-/

/-- C4: combo law of ScoreManager.addScore. For a ledger whose last
successful cut happened at a positive wall-clock time t0 with combo c, a
cut recorded at t1 yields combo c + 1 when t1 - t0 is at most the combo
timeout, and combo 1 when t1 - t0 exceeds it; and on a freshly reset
ledger (lastCutTime 0, no previous cut this session) the first cut yields
combo 1 at every time. -/
theorem c4_combo_law (s : ScoreManager.State) (treasure : TreasureConfig)
    (t0 t1 : ℤ) (c : ℕ)
    (hlast : s.lastCutTime = t0) (ht0 : 0 < t0) (hc : s.scoreData.combo = c) :
    ((t1 - t0 ≤ ScoreManager.comboTimeout →
        (ScoreManager.addScore treasure t1 s).1.scoreData.combo = c + 1 ∧
        (ScoreManager.addScore treasure t1 s).2.combo = c + 1) ∧
     (ScoreManager.comboTimeout < t1 - t0 →
        (ScoreManager.addScore treasure t1 s).1.scoreData.combo = 1 ∧
        (ScoreManager.addScore treasure t1 s).2.combo = 1)) ∧
    ∀ t : ℤ,
      (ScoreManager.addScore treasure t ScoreManager.resetState).1.scoreData.combo = 1 := by
  refine ⟨⟨fun hle => ?_, fun hgt => ?_⟩, fun t => ?_⟩
  · simp [ScoreManager.addScore, hlast, hc, hle, ht0]
  · have hnle : ¬ (t1 - t0 ≤ ScoreManager.comboTimeout) := not_le.mpr hgt
    simp [ScoreManager.addScore, hlast, hnle]
  · simp [ScoreManager.addScore, ScoreManager.resetState]

/-- Witness for C4 at concrete inputs: after a first cut at time 1000
(combo 1), a second cut at time 2000 is within the 3000 ms window and
yields combo 2. -/
theorem c4_combo_law_witness :
    (ScoreManager.addScore (getTreasureConfig .gold) 2000
      (ScoreManager.addScore (getTreasureConfig .gold) 1000
        ScoreManager.resetState).1).1.scoreData.combo = 1 + 1 :=
  ((c4_combo_law
      (ScoreManager.addScore (getTreasureConfig .gold) 1000 ScoreManager.resetState).1
      (getTreasureConfig .gold) 1000 2000 1
      (by decide) (by decide) (by decide)).1.1 (by decide)).1

/-- C5: combo decay in ScoreManager.update. For a ledger whose last cut
was at time t0: with positive combo, an update strictly after
t0 + comboTimeout zeroes the combo; an update at or before that instant
leaves the whole state unchanged; and with combo already 0 the update
changes nothing. -/
theorem c5_combo_decay (s : ScoreManager.State) (t0 u : ℤ)
    (hlast : s.lastCutTime = t0) :
    (0 < s.scoreData.combo → t0 + ScoreManager.comboTimeout < u →
       (ScoreManager.update u s).scoreData.combo = 0) ∧
    (u ≤ t0 + ScoreManager.comboTimeout → ScoreManager.update u s = s) ∧
    (s.scoreData.combo = 0 → ScoreManager.update u s = s) := by
  refine ⟨fun hpos hu => ?_, fun hu => ?_, fun hz => ?_⟩
  · have hgt : ScoreManager.comboTimeout < u - s.lastCutTime := by
      rw [hlast]; omega
    simp [ScoreManager.update, hpos, hgt, ScoreManager.resetCombo]
  · have hngt : ¬ ScoreManager.comboTimeout < u - s.lastCutTime := by
      rw [hlast]; omega
    simp [ScoreManager.update, hngt]
  · simp [ScoreManager.update, hz]

/-- Witness for C5 at concrete inputs: after a single cut at time 1000,
an update at 4001 (strictly past 1000 + 3000) zeroes the combo. -/
theorem c5_combo_decay_witness :
    (ScoreManager.update 4001
      (ScoreManager.addScore (getTreasureConfig .gold) 1000
        ScoreManager.resetState).1).scoreData.combo = 0 :=
  (c5_combo_decay
      (ScoreManager.addScore (getTreasureConfig .gold) 1000 ScoreManager.resetState).1
      1000 4001 (by decide)).1 (by decide) (by decide)

/-- C6: difficulty-curve monotonicity. Under an initialized configuration
with minInterval at most initialInterval, minSpeed at most maxSpeed and a
positive ramp duration, the spawn interval is non-increasing and the speed
non-decreasing in elapsed time, and past the ramp duration both stay
pinned at minInterval and maxSpeed. -/
theorem c6_difficulty_curve (c : SpawnConfig) (dc : DifficultyConfig)
    (hInt : c.minInterval ≤ c.initialInterval)
    (hSpd : c.minSpeed ≤ c.maxSpeed)
    (hT : 0 < dc.totalDuration) :
    (∀ e1 e2 : ℚ, 0 ≤ e1 → e1 ≤ e2 →
        SpawnManager.getSpawnInterval (some c) (some dc) e2 ≤
          SpawnManager.getSpawnInterval (some c) (some dc) e1 ∧
        SpawnManager.getSpeed (some c) (some dc) e1 ≤
          SpawnManager.getSpeed (some c) (some dc) e2) ∧
    (∀ e : ℚ, dc.totalDuration ≤ e →
        SpawnManager.getSpawnInterval (some c) (some dc) e = c.minInterval ∧
        SpawnManager.getSpeed (some c) (some dc) e = c.maxSpeed) := by
  have hmul : ∀ e1 e2 : ℚ, e1 ≤ e2 →
      SpawnManager.getDifficultyMultiplier (some dc) e1 ≤
        SpawnManager.getDifficultyMultiplier (some dc) e2 := by
    intro e1 e2 h12
    have : e1 / dc.totalDuration ≤ e2 / dc.totalDuration :=
      div_le_div_of_nonneg_right h12 hT.le
    exact min_le_min le_rfl this
  have hone : ∀ e : ℚ, dc.totalDuration ≤ e →
      SpawnManager.getDifficultyMultiplier (some dc) e = 1 := by
    intro e he
    have h1 : (1 : ℚ) ≤ e / dc.totalDuration := by
      rw [le_div_iff₀ hT]
      linarith
    simp [SpawnManager.getDifficultyMultiplier, min_eq_left h1]
  refine ⟨fun e1 e2 _ h12 => ?_, fun e he => ?_⟩
  · have hd := hmul e1 e2 h12
    constructor
    · have := mul_le_mul_of_nonneg_left hd (sub_nonneg.mpr hInt)
      simp only [SpawnManager.getSpawnInterval]
      linarith
    · have := mul_le_mul_of_nonneg_left hd (sub_nonneg.mpr hSpd)
      simp only [SpawnManager.getSpeed]
      linarith
  · rw [SpawnManager.getSpawnInterval, SpawnManager.getSpeed, hone e he]
    constructor <;> ring

/-- Witness for C6 at a concrete configuration (initial interval 3 s, min
interval 2 s, speeds 1 to 2, 30 s ramp): at elapsed times 0 and 10 the
interval does not increase and the speed does not decrease. -/
theorem c6_difficulty_curve_witness :
    SpawnManager.getSpawnInterval
        (some { initialInterval := 3, minInterval := 2, minSpeed := 1, maxSpeed := 2 })
        (some { totalDuration := 30 }) 10 ≤
      SpawnManager.getSpawnInterval
        (some { initialInterval := 3, minInterval := 2, minSpeed := 1, maxSpeed := 2 })
        (some { totalDuration := 30 }) 0 ∧
    SpawnManager.getSpeed
        (some { initialInterval := 3, minInterval := 2, minSpeed := 1, maxSpeed := 2 })
        (some { totalDuration := 30 }) 0 ≤
      SpawnManager.getSpeed
        (some { initialInterval := 3, minInterval := 2, minSpeed := 1, maxSpeed := 2 })
        (some { totalDuration := 30 }) 10 :=
  (c6_difficulty_curve
      { initialInterval := 3, minInterval := 2, minSpeed := 1, maxSpeed := 2 }
      { totalDuration := 30 }
      (by decide) (by decide) (by decide)).1 0 10 (by decide) (by decide)

/-- C7: the code does not implement the clamp the spec requires. With
totalRampDuration = -1 (a non-positive duration) and elapsed time 1,
getDifficultyMultiplier evaluates min(1, 1 / (-1)) = -1 — not 1. Exact
rational arithmetic coincides with the IEEE evaluation the source
performs at these inputs, so the multiplier the code produces differs
from the clamped value 1 the claim demands. -/
theorem c7_no_clamp_at_nonpositive_duration :
    SpawnManager.getDifficultyMultiplier (some { totalDuration := -1 }) 1 = -1 ∧
    SpawnManager.getDifficultyMultiplier (some { totalDuration := -1 }) 1 ≠ 1 := by
  have h : SpawnManager.getDifficultyMultiplier (some { totalDuration := -1 }) 1 = -1 := by
    show min 1 ((1 : ℚ) / (-1 : ℚ)) = -1
    norm_num
  exact ⟨h, by rw [h]; norm_num⟩

/-- Counterexample for C8: invoked on a Physics instance whose world has
not been initialized, step does not throw — it returns normally (after
only logging a warning), leaving the state untouched. -/
theorem c8_counterexample :
    Physics.step Physics.mkPhysics = Except.ok Physics.mkPhysics := rfl

/-- C8 (amended): on an uninitialized Physics instance, createRigidBody,
createCollider, getWorld and getRAPIER all fail fast by throwing, while
step alone merely logs a warning and returns without stepping (no error,
no state change). -/
theorem c8_uninitialized_behavior (s : PhysicsState)
    (hw : s.world = none) (hr : s.rapier = none) :
    Physics.step s = .ok s ∧
    Physics.createRigidBody s = .error "[Physics] World not initialized" ∧
    Physics.createCollider s = .error "[Physics] World not initialized" ∧
    Physics.getWorld s = .error "[Physics] World not initialized" ∧
    Physics.getRAPIER s = .error "[Physics] RAPIER not initialized" := by
  refine ⟨?_, ?_, ?_, ?_, ?_⟩ <;>
    simp [Physics.step, Physics.createRigidBody, Physics.createCollider,
      Physics.getWorld, Physics.getRAPIER, hw, hr]

/-- Witness for C8 (amended) at the freshly constructed instance. -/
theorem c8_uninitialized_behavior_witness :
    Physics.getWorld Physics.mkPhysics = .error "[Physics] World not initialized" :=
  (c8_uninitialized_behavior Physics.mkPhysics rfl rfl).2.2.2.1

/-- C9: the gesture state machine fires the cut action exactly once per
Victory exit. For each hand independently: a frame that sees the tracked
gesture leave Victory — whether to another detected gesture g or to the
forced None when the hand disappears — emits exactly one onVCloseAction
for that hand and stores the new gesture; further undetected frames emit
nothing; and once the stored gesture is None, the next detected gesture
is compared against None, so no residual Victory can fire a second cut. -/
theorem c9_victory_exit_fires_once (h : Handedness) (g : GestureType)
    (hg : g ≠ .Victory) :
    (GestureTracker.countVClose h
        (GestureTracker.onResultsHand h .Victory (some g)).2 = 1 ∧
      (GestureTracker.onResultsHand h .Victory (some g)).1 = g) ∧
    (GestureTracker.countVClose h
        (GestureTracker.onResultsHand h .Victory none).2 = 1 ∧
      (GestureTracker.onResultsHand h .Victory none).1 = .None) ∧
    GestureTracker.onResultsHand h .None none = (.None, []) ∧
    (∀ g2 : GestureType, GestureTracker.countVClose h
        (GestureTracker.onResultsHand h .None (some g2)).2 = 0) := by
  cases h <;> cases g <;> first
    | exact absurd rfl hg
    | decide

/-- Witness for C9: the left hand leaving Victory for Closed_Fist fires
exactly one cut action. -/
theorem c9_victory_exit_fires_once_witness :
    GestureTracker.countVClose .left
      (GestureTracker.onResultsHand .left .Victory (some .Closed_Fist)).2 = 1 :=
  (c9_victory_exit_fires_once .left .Closed_Fist (by decide)).1.1

/-- The joints built by connectRopeSegments are exactly the pairs (j, j+1)
for j below the segment count: the anchor joint links nodes 0 and 1 and
the pair joints link consecutive segment nodes. -/
theorem connectRopeSegments_eq (n : ℕ) :
    connectRopeSegments n = (List.range n).map (fun j => (j, j + 1)) := by
  cases n with
  | zero => rfl
  | succ k =>
      simp [connectRopeSegments, List.range_succ_eq_map, List.map_map,
        Function.comp]

/-- The joint array of a spawned assembly is the chain (j, j+1) for j up
to and including the segment count (the last entry being the treasure
joint pushed by spawnRopeWithTreasure). -/
theorem spawn_joints_eq (id : ℕ) (dir : Direction) (tt : TreasureType)
    (config : RopeConfig) :
    (GameManager.spawnRopeWithTreasure id dir tt config).joints
      = (List.range (config.segmentCount + 1)).map (fun j => (j, j + 1)) := by
  show connectRopeSegments config.segmentCount ++ [attachTreasureToRope config.segmentCount]
      = (List.range (config.segmentCount + 1)).map (fun j => (j, j + 1))
  rw [connectRopeSegments_eq, List.range_succ]
  simp [attachTreasureToRope]

/-- Joint count of a spawned assembly. -/
theorem spawn_joints_length (id : ℕ) (dir : Direction) (tt : TreasureType)
    (config : RopeConfig) :
    (GameManager.spawnRopeWithTreasure id dir tt config).joints.length
      = config.segmentCount + 1 := by
  rw [spawn_joints_eq]; simp

/-- Segment count of a spawned assembly. -/
theorem spawn_segments_length (id : ℕ) (dir : Direction) (tt : TreasureType)
    (config : RopeConfig) :
    (GameManager.spawnRopeWithTreasure id dir tt config).segments.length
      = config.segmentCount := by
  show (createRopeSegmentGeoms _ config).length = config.segmentCount
  rw [createRopeSegmentGeoms, List.length_map, List.length_range]

/-- At spawn time every joint of the assembly is present in the physics
world. -/
theorem spawn_worldJoints_eq (id : ℕ) (dir : Direction) (tt : TreasureType)
    (config : RopeConfig) :
    (GameManager.spawnRopeWithTreasure id dir tt config).worldJoints
      = Finset.range (config.segmentCount + 1) := by
  show Finset.range
      ((GameManager.spawnRopeWithTreasure id dir tt config).joints.length) = _
  rw [spawn_joints_length]

/-- A spawned assembly starts uncut. -/
theorem spawn_isCut (id : ℕ) (dir : Direction) (tt : TreasureType)
    (config : RopeConfig) :
    (GameManager.spawnRopeWithTreasure id dir tt config).isCut = false := rfl

/-- pathStep is symmetric: a joint links its two nodes in both directions. -/
theorem pathStep_symm (S : Finset ℕ) : Symmetric (pathStep S) := by
  intro a b hab
  rcases hab with ⟨h1, h2⟩ | ⟨h1, h2⟩
  · exact Or.inr ⟨h1, h2⟩
  · exact Or.inl ⟨h1, h2⟩

/-- pathReach is symmetric. -/
theorem pathReach_symm (S : Finset ℕ) : Symmetric (pathReach S) :=
  Relation.ReflTransGen.symmetric (pathStep_symm S)

/-- A single hop through surviving joints never crosses a removed joint
index i: both endpoints lie on the same side of i. -/
theorem pathStep_side (S : Finset ℕ) (i : ℕ) (hS : i ∉ S) {a b : ℕ}
    (h : pathStep S a b) : (a ≤ i ↔ b ≤ i) := by
  rcases h with ⟨haS, rfl⟩ | ⟨hbS, rfl⟩
  · have hne : a ≠ i := fun he => hS (he ▸ haS)
    omega
  · have hne : b ≠ i := fun he => hS (he ▸ hbS)
    omega

/-- Reachability through surviving joints never crosses a removed joint
index. -/
theorem pathReach_side (S : Finset ℕ) (i : ℕ) (hS : i ∉ S) {a b : ℕ}
    (h : pathReach S a b) : (a ≤ i ↔ b ≤ i) := by
  induction h with
  | refl => exact Iff.rfl
  | tail _ hstep ih => exact ih.trans (pathStep_side S i hS hstep)

/-- When every joint index between two nodes survives, the two nodes are
connected. -/
theorem pathReach_interval (S : Finset ℕ) (a b : ℕ) (hab : a ≤ b)
    (hmem : ∀ j, a ≤ j → j < b → j ∈ S) : pathReach S a b := by
  induction b, hab using Nat.le_induction with
  | base => exact Relation.ReflTransGen.refl
  | succ b hb ih =>
      have hreach : pathReach S a b := ih (fun j hj1 hj2 => hmem j hj1 (by omega))
      exact hreach.tail (Or.inl ⟨hmem b hb (by omega), rfl⟩)

/-- Connectivity of chain nodes after erasing joint i from a full chain of
n + 1 joints: two nodes of the chain are connected exactly when they lie
on the same side of i. -/
theorem pathReach_erase_iff (n i : ℕ) (hi : i ≤ n) (a b : ℕ)
    (ha : a ≤ n + 1) (hb : b ≤ n + 1) :
    pathReach ((Finset.range (n + 1)).erase i) a b ↔ ((a ≤ i) ↔ (b ≤ i)) := by
  have hiS : i ∉ (Finset.range (n + 1)).erase i := Finset.not_mem_erase i _
  constructor
  · exact fun h => pathReach_side _ i hiS h
  · intro hiff
    have key : ∀ x y, x ≤ y → y ≤ n + 1 → ((x ≤ i) ↔ (y ≤ i)) →
        pathReach ((Finset.range (n + 1)).erase i) x y := by
      intro x y hxy hyn hxyiff
      apply pathReach_interval _ x y hxy
      intro j hj1 hj2
      rcases le_or_lt x i with hxle | hxgt
      · have hyle : y ≤ i := hxyiff.mp hxle
        exact Finset.mem_erase.mpr ⟨by omega, Finset.mem_range.mpr (by omega)⟩
      · have hygt : ¬ y ≤ i := fun hy => hxgt.not_le (hxyiff.mpr hy)
        exact Finset.mem_erase.mpr ⟨by omega, Finset.mem_range.mpr (by omega)⟩
    rcases Nat.le_total a b with hab | hba
    · exact key a b hab hb hiff
    · exact pathReach_symm _ (key b a hba ha hiff.symm)

/-- The joint array of a cut assembly is that of the spawned assembly. -/
theorem cutAssembly_joints (id : ℕ) (dir : Direction) (tt : TreasureType)
    (config : RopeConfig) (i : ℕ) :
    (cutAssembly id dir tt config i).joints
      = (List.range (config.segmentCount + 1)).map (fun j => (j, j + 1)) :=
  spawn_joints_eq id dir tt config

/-- The world joints of a cut assembly are all joint indices except i. -/
theorem cutAssembly_worldJoints (id : ℕ) (dir : Direction) (tt : TreasureType)
    (config : RopeConfig) (i : ℕ) :
    (cutAssembly id dir tt config i).worldJoints
      = (Finset.range (config.segmentCount + 1)).erase i := by
  show (GameManager.spawnRopeWithTreasure id dir tt config).worldJoints.erase i = _
  rw [spawn_worldJoints_eq]

/-- One hop through the cut assembly's surviving joints is exactly one
hop of the abstract erased chain. -/
theorem cutAssembly_chainStep_iff (id : ℕ) (dir : Direction)
    (tt : TreasureType) (config : RopeConfig) (i : ℕ) (a b : ℕ) :
    ropeChainStep (cutAssembly id dir tt config i) a b ↔
      pathStep ((Finset.range (config.segmentCount + 1)).erase i) a b := by
  have hJ := cutAssembly_joints id dir tt config i
  have hW := cutAssembly_worldJoints id dir tt config i
  have hlen : (cutAssembly id dir tt config i).joints.length
      = config.segmentCount + 1 := by rw [hJ]; simp
  have hget : ∀ (j : ℕ) (hjl : j < (cutAssembly id dir tt config i).joints.length),
      (cutAssembly id dir tt config i).joints.get ⟨j, hjl⟩ = (j, j + 1) := by
    intro j hjl
    simp [List.get_eq_getElem, hJ]
  constructor
  · rintro ⟨j, hjW, hjlt, hor⟩
    rw [hget j hjlt] at hor
    rw [hW] at hjW
    rcases hor with h1 | h1
    · injection h1 with h1a h1b
      subst h1a
      subst h1b
      exact Or.inl ⟨hjW, rfl⟩
    · injection h1 with h1a h1b
      subst h1a
      subst h1b
      exact Or.inr ⟨hjW, rfl⟩
  · rintro (⟨haS, rfl⟩ | ⟨hbS, rfl⟩)
    · have halt : a < config.segmentCount + 1 :=
        Finset.mem_range.mp (Finset.mem_erase.mp haS).2
      refine ⟨a, ?_, ?_, ?_⟩
      · rw [hW]; exact haS
      · rw [hlen]; exact halt
      · exact Or.inl (by rw [hget a (by rw [hlen]; exact halt)])
    · have hblt : b < config.segmentCount + 1 :=
        Finset.mem_range.mp (Finset.mem_erase.mp hbS).2
      refine ⟨b, ?_, ?_, ?_⟩
      · rw [hW]; exact hbS
      · rw [hlen]; exact hblt
      · exact Or.inr (by rw [hget b (by rw [hlen]; exact hblt)])

/-- Reachability through the cut assembly's surviving joints coincides
with reachability of the abstract erased chain. -/
theorem cutAssembly_reach_iff (id : ℕ) (dir : Direction) (tt : TreasureType)
    (config : RopeConfig) (i : ℕ) (a b : ℕ) :
    ropeReach (cutAssembly id dir tt config i) a b ↔
      pathReach ((Finset.range (config.segmentCount + 1)).erase i) a b := by
  constructor
  · exact Relation.ReflTransGen.mono
      (fun x y h => (cutAssembly_chainStep_iff id dir tt config i x y).mp h)
  · exact Relation.ReflTransGen.mono
      (fun x y h => (cutAssembly_chainStep_iff id dir tt config i x y).mpr h)

/-- C1: the cut removes exactly the joint above the hit segment and
detaches the lower sub-chain. For a spawned assembly with at least one
segment and any hit segment index i below the joint count, the shared
cut loop removes joints[i] from the physics world and no other joint of
the assembly, and afterwards two chain nodes (0 the anchor, k+1 segment
k, segmentCount+1 the treasure) remain connected through surviving
joints exactly when they lie on the same side of joint i: the hit
segment (node i+1), all lower segments and the treasure stay one
connected sub-chain, and all of them are disconnected from the anchor. -/
theorem c1_cut_removes_joint_above (id : ℕ) (dir : Direction)
    (tt : TreasureType) (config : RopeConfig) (i : ℕ)
    (hn : 1 ≤ config.segmentCount)
    (hi : i < (GameManager.spawnRopeWithTreasure id dir tt config).joints.length) :
    GameManager.cutRopesFirstHit (fun _ => some i)
        [GameManager.spawnRopeWithTreasure id dir tt config]
      = ([cutAssembly id dir tt config i],
         some { success := true, ropeId := id, segmentIndex := i,
                treasure := getTreasureConfig tt }) ∧
    i ∉ (cutAssembly id dir tt config i).worldJoints ∧
    (∀ j, j < (GameManager.spawnRopeWithTreasure id dir tt config).joints.length →
       j ≠ i → j ∈ (cutAssembly id dir tt config i).worldJoints) ∧
    (∀ a b, a ≤ config.segmentCount + 1 → b ≤ config.segmentCount + 1 →
       (ropeReach (cutAssembly id dir tt config i) a b ↔ ((a ≤ i) ↔ (b ≤ i)))) := by
  have hilen : i ≤ config.segmentCount := by
    have := spawn_joints_length id dir tt config
    omega
  refine ⟨?_, ?_, ?_, ?_⟩
  · simp [GameManager.cutRopesFirstHit, spawn_isCut, hi, cutAssembly]
    exact ⟨rfl, rfl⟩
  · rw [cutAssembly_worldJoints]
    exact Finset.not_mem_erase i _
  · intro j hj hne
    rw [cutAssembly_worldJoints]
    refine Finset.mem_erase.mpr ⟨hne, Finset.mem_range.mpr ?_⟩
    have := spawn_joints_length id dir tt config
    omega
  · intro a b ha hb
    rw [cutAssembly_reach_iff]
    exact pathReach_erase_iff config.segmentCount i hilen a b ha hb

/-- Witness for C1: cutting segment 2 of a default-config assembly leaves
joint 2 out of the world, keeps joint 3, and disconnects the anchor
(node 0) from the hit segment (node 3) while keeping the hit segment
connected to the treasure (node 6). -/
theorem c1_cut_removes_joint_above_witness :
    2 ∉ (cutAssembly 0 .left .gold GameManager.defaultRopeConfig 2).worldJoints ∧
    3 ∈ (cutAssembly 0 .left .gold GameManager.defaultRopeConfig 2).worldJoints ∧
    ¬ ropeReach (cutAssembly 0 .left .gold GameManager.defaultRopeConfig 2) 0 3 ∧
    ropeReach (cutAssembly 0 .left .gold GameManager.defaultRopeConfig 2) 3 6 := by
  have h := c1_cut_removes_joint_above 0 .left .gold GameManager.defaultRopeConfig 2
    (by decide) (by decide)
  refine ⟨h.2.1, ?_, ?_, ?_⟩
  · exact h.2.2.1 3 (by decide) (by decide)
  · intro hreach
    have := (h.2.2.2 0 3 (by decide) (by decide)).mp hreach
    omega
  · exact (h.2.2.2 3 6 (by decide) (by decide)).mpr (by omega)

/-- The cut loop never adds or removes an assembly: the active collection
keeps its length. -/
theorem cutRopesFirstHit_length (hit : RopeWithTreasure → Option ℕ) :
    ∀ ropes, (GameManager.cutRopesFirstHit hit ropes).1.length = ropes.length := by
  intro ropes
  induction ropes with
  | nil => rfl
  | cons rope rest ih =>
      by_cases hc : rope.isCut = true
      · simp [GameManager.cutRopesFirstHit, hc, ih]
      · cases hh : hit rope with
        | none => simp [GameManager.cutRopesFirstHit, hc, hh, ih]
        | some idx =>
            by_cases hlt : idx < rope.joints.length
            · simp [GameManager.cutRopesFirstHit, hc, hh, hlt]
            · simp [GameManager.cutRopesFirstHit, hc, hh, hlt, ih]

/-- An assembly whose isCut flag is set is skipped by the cut loop: the
element at its position is returned untouched. -/
theorem cutRopesFirstHit_skips_isCut (hit : RopeWithTreasure → Option ℕ) :
    ∀ ropes k (hk : k < ropes.length), (ropes.get ⟨k, hk⟩).isCut = true →
      (GameManager.cutRopesFirstHit hit ropes).1[k]? = some (ropes.get ⟨k, hk⟩) := by
  intro ropes
  induction ropes with
  | nil => intro k hk; exact absurd hk (by simp)
  | cons rope rest ih =>
      intro k hk hcut
      cases k with
      | zero =>
          have hc : rope.isCut = true := hcut
          simp [GameManager.cutRopesFirstHit, hc]
      | succ k2 =>
          have hk2 : k2 < rest.length := Nat.lt_of_succ_lt_succ hk
          have hcut2 : (rest.get ⟨k2, hk2⟩).isCut = true := hcut
          by_cases hc : rope.isCut = true
          · simpa [GameManager.cutRopesFirstHit, hc] using ih k2 hk2 hcut2
          · cases hh : hit rope with
            | none =>
                simpa [GameManager.cutRopesFirstHit, hc, hh] using ih k2 hk2 hcut2
            | some idx =>
                by_cases hlt : idx < rope.joints.length
                · simp [GameManager.cutRopesFirstHit, hc, hh, hlt,
                    List.getElem?_eq_getElem hk2, List.get_eq_getElem]
                · simpa [GameManager.cutRopesFirstHit, hc, hh, hlt] using ih k2 hk2 hcut2

/-- A CutResult produced by the cut loop carries the id of some assembly
of the collection that was not yet cut when the loop ran. -/
theorem cutRopesFirstHit_result_mem (hit : RopeWithTreasure → Option ℕ) :
    ∀ ropes cr, (GameManager.cutRopesFirstHit hit ropes).2 = some cr →
      ∃ r ∈ ropes, r.isCut = false ∧ cr.ropeId = r.id := by
  intro ropes
  induction ropes with
  | nil => intro cr h; exact absurd h (by simp [GameManager.cutRopesFirstHit])
  | cons rope rest ih =>
      intro cr h
      by_cases hc : rope.isCut = true
      · have hres : (GameManager.cutRopesFirstHit hit (rope :: rest)).2
            = (GameManager.cutRopesFirstHit hit rest).2 := by
          simp [GameManager.cutRopesFirstHit, hc]
        rw [hres] at h
        obtain ⟨r, hr, h1, h2⟩ := ih cr h
        exact ⟨r, List.mem_cons_of_mem _ hr, h1, h2⟩
      · have hcf : rope.isCut = false := by simpa using hc
        cases hh : hit rope with
        | none =>
            have hres : (GameManager.cutRopesFirstHit hit (rope :: rest)).2
                = (GameManager.cutRopesFirstHit hit rest).2 := by
              simp [GameManager.cutRopesFirstHit, hc, hh]
            rw [hres] at h
            obtain ⟨r, hr, h1, h2⟩ := ih cr h
            exact ⟨r, List.mem_cons_of_mem _ hr, h1, h2⟩
        | some idx =>
            by_cases hlt : idx < rope.joints.length
            · have hres : (GameManager.cutRopesFirstHit hit (rope :: rest)).2
                  = some { success := true, ropeId := rope.id,
                           segmentIndex := idx, treasure := rope.treasure } := by
                simp [GameManager.cutRopesFirstHit, hc, hh, hlt]
              rw [hres] at h
              cases Option.some.inj h
              exact ⟨rope, List.mem_cons_self _ _, hcf, rfl⟩
            · have hres : (GameManager.cutRopesFirstHit hit (rope :: rest)).2
                  = (GameManager.cutRopesFirstHit hit rest).2 := by
                simp [GameManager.cutRopesFirstHit, hc, hh, hlt]
              rw [hres] at h
              obtain ⟨r, hr, h1, h2⟩ := ih cr h
              exact ⟨r, List.mem_cons_of_mem _ hr, h1, h2⟩

/-- C2: a cut assembly is excluded from all later hit-testing. For any
collection with pairwise distinct ids and any position k holding an
assembly whose isCut flag is already true: a run of the shared cut loop
(the routine both the pointer path and, via cutRopeAtPoint, the gesture
path execute) keeps the collection's length, returns the assembly at k
untouched (so the flag never leaves true and no second joint of it is
removed), never returns a CutResult carrying that assembly's id (so no
second cut or score event is produced for it) — likewise through
handleVCloseAction for any cached hand position — while the per-frame
move pass keeps the assembly in the active collection exactly until its
anchor leaves the |x| > 10 bounds. -/
theorem c2_isCut_excluded (hit : RopeWithTreasure → Option ℕ)
    (ropes : List RopeWithTreasure) (k : ℕ) (hk : k < ropes.length)
    (hcut : (ropes.get ⟨k, hk⟩).isCut = true)
    (hids : (ropes.map RopeWithTreasure.id).Nodup) :
    (GameManager.cutRopesFirstHit hit ropes).1.length = ropes.length ∧
    (GameManager.cutRopesFirstHit hit ropes).1[k]? = some (ropes.get ⟨k, hk⟩) ∧
    (∀ cr, (GameManager.cutRopesFirstHit hit ropes).2 = some cr →
       cr.ropeId ≠ (ropes.get ⟨k, hk⟩).id) ∧
    (∀ (hit2 : Vec3 → RopeWithTreasure → Option ℕ) (hp : Option Vec3) cr,
       (GameManager.handleVCloseAction hit2 hp ropes).2 = some cr →
       cr.ropeId ≠ (ropes.get ⟨k, hk⟩).id) ∧
    (∀ dt : ℚ, (∃ r2 ∈ GameManager.updateRopes dt ropes,
         r2.id = (ropes.get ⟨k, hk⟩).id) ↔
       ¬ 10 < |GameManager.moveRopeNewX dt (ropes.get ⟨k, hk⟩)|) := by
  have hmemk : ropes.get ⟨k, hk⟩ ∈ ropes := List.get_mem ropes k hk
  have hexcl : ∀ (h2 : RopeWithTreasure → Option ℕ) cr,
      (GameManager.cutRopesFirstHit h2 ropes).2 = some cr →
      cr.ropeId ≠ (ropes.get ⟨k, hk⟩).id := by
    intro h2 cr hres heq
    obtain ⟨r, hrmem, hrUncut, hrid⟩ := cutRopesFirstHit_result_mem h2 ropes cr hres
    have hre : r = ropes.get ⟨k, hk⟩ :=
      List.inj_on_of_nodup_map hids hrmem hmemk (hrid.symm.trans heq)
    rw [hre, hcut] at hrUncut
    exact absurd hrUncut (by simp)
  refine ⟨cutRopesFirstHit_length hit ropes,
    cutRopesFirstHit_skips_isCut hit ropes k hk hcut, hexcl hit, ?_, ?_⟩
  · intro hit2 hp cr hres
    cases hp with
    | none => exact absurd hres (by simp [GameManager.handleVCloseAction])
    | some p => exact hexcl (hit2 p) cr hres
  · intro dt
    constructor
    · rintro ⟨r2, hr2mem, hr2id⟩
      rw [GameManager.updateRopes] at hr2mem
      obtain ⟨r1, hr1mem, hf⟩ := List.mem_filterMap.mp hr2mem
      by_cases hb : 10 < |GameManager.moveRopeNewX dt r1|
      · simp [hb] at hf
      · simp only [hb, if_false] at hf
        have hf2 := Option.some.inj hf
        have hid1 : r1.id = (ropes.get ⟨k, hk⟩).id := by
          rw [← hr2id, ← hf2]
        have hre : r1 = ropes.get ⟨k, hk⟩ :=
          List.inj_on_of_nodup_map hids hr1mem hmemk hid1
        rw [← hre]
        exact hb
    · intro hb
      refine ⟨{ ropes.get ⟨k, hk⟩ with
          anchorX := GameManager.moveRopeNewX dt (ropes.get ⟨k, hk⟩) }, ?_, rfl⟩
      rw [GameManager.updateRopes]
      exact List.mem_filterMap.mpr ⟨ropes.get ⟨k, hk⟩, hmemk, if_neg hb⟩

/-- Witness for C2: a single already-cut assembly is skipped by the cut
loop and returned unchanged. -/
theorem c2_isCut_excluded_witness :
    (GameManager.cutRopesFirstHit (fun _ => some 0)
        [cutAssembly 0 .left .gold GameManager.defaultRopeConfig 0]).1[0]?
      = some (cutAssembly 0 .left .gold GameManager.defaultRopeConfig 0) :=
  (c2_isCut_excluded (fun _ => some 0)
      [cutAssembly 0 .left .gold GameManager.defaultRopeConfig 0]
      0 (by decide) (by decide) (by decide)).2.1

/-- C3: joint-count invariant. A freshly built assembly with at least one
segment has exactly segments.length + 1 joints and isCut false; and no
per-frame operation touches a live assembly's joint array or segment
list — every assembly surviving the cut loop or the move-and-cull pass
keeps the joints and segments of an assembly of the previous frame — so
the relation holds until the assembly is torn down (removed whole). -/
theorem c3_joint_count_invariant (id : ℕ) (dir : Direction)
    (tt : TreasureType) (config : RopeConfig)
    (hn : 1 ≤ config.segmentCount) :
    ((GameManager.spawnRopeWithTreasure id dir tt config).joints.length
       = (GameManager.spawnRopeWithTreasure id dir tt config).segments.length + 1 ∧
     (GameManager.spawnRopeWithTreasure id dir tt config).isCut = false) ∧
    (∀ (hit : RopeWithTreasure → Option ℕ) (ropes : List RopeWithTreasure),
       ∀ r2 ∈ (GameManager.cutRopesFirstHit hit ropes).1,
         ∃ r1 ∈ ropes, r2.joints = r1.joints ∧ r2.segments = r1.segments) ∧
    (∀ (dt : ℚ) (ropes : List RopeWithTreasure),
       ∀ r2 ∈ GameManager.updateRopes dt ropes,
         ∃ r1 ∈ ropes, r2.joints = r1.joints ∧ r2.segments = r1.segments) := by
  refine ⟨⟨?_, spawn_isCut id dir tt config⟩, ?_, ?_⟩
  · rw [spawn_joints_length, spawn_segments_length]
  · intro hit ropes
    induction ropes with
    | nil => intro r2 h; exact absurd h (by simp [GameManager.cutRopesFirstHit])
    | cons rope rest ih =>
        intro r2 h
        by_cases hc : rope.isCut = true
        · rw [show (GameManager.cutRopesFirstHit hit (rope :: rest)).1
                = rope :: (GameManager.cutRopesFirstHit hit rest).1 from by
              simp [GameManager.cutRopesFirstHit, hc]] at h
          rcases List.mem_cons.mp h with rfl | h2
          · exact ⟨r2, List.mem_cons_self _ _, rfl, rfl⟩
          · obtain ⟨r1, hr1, e1, e2⟩ := ih r2 h2
            exact ⟨r1, List.mem_cons_of_mem _ hr1, e1, e2⟩
        · cases hh : hit rope with
          | none =>
              rw [show (GameManager.cutRopesFirstHit hit (rope :: rest)).1
                    = rope :: (GameManager.cutRopesFirstHit hit rest).1 from by
                  simp [GameManager.cutRopesFirstHit, hc, hh]] at h
              rcases List.mem_cons.mp h with rfl | h2
              · exact ⟨r2, List.mem_cons_self _ _, rfl, rfl⟩
              · obtain ⟨r1, hr1, e1, e2⟩ := ih r2 h2
                exact ⟨r1, List.mem_cons_of_mem _ hr1, e1, e2⟩
          | some idx =>
              by_cases hlt : idx < rope.joints.length
              · have hres1 : (GameManager.cutRopesFirstHit hit (rope :: rest)).1
                    = ({ rope with
                         worldJoints := rope.worldJoints.erase idx,
                         isCut := true } :: rest) := by
                  simp [GameManager.cutRopesFirstHit, hc, hh, hlt]
                rw [hres1] at h
                rcases List.mem_cons.mp h with rfl | h2
                · exact ⟨rope, List.mem_cons_self _ _, rfl, rfl⟩
                · exact ⟨r2, List.mem_cons_of_mem _ h2, rfl, rfl⟩
              · rw [show (GameManager.cutRopesFirstHit hit (rope :: rest)).1
                      = rope :: (GameManager.cutRopesFirstHit hit rest).1 from by
                    simp [GameManager.cutRopesFirstHit, hc, hh, hlt]] at h
                rcases List.mem_cons.mp h with rfl | h2
                · exact ⟨r2, List.mem_cons_self _ _, rfl, rfl⟩
                · obtain ⟨r1, hr1, e1, e2⟩ := ih r2 h2
                  exact ⟨r1, List.mem_cons_of_mem _ hr1, e1, e2⟩
  · intro dt ropes r2 h
    rw [GameManager.updateRopes] at h
    obtain ⟨r1, hr1mem, hf⟩ := List.mem_filterMap.mp h
    by_cases hb : 10 < |GameManager.moveRopeNewX dt r1|
    · simp [hb] at hf
    · simp only [hb, if_false] at hf
      cases Option.some.inj hf
      exact ⟨r1, hr1mem, rfl, rfl⟩

/-- Witness for C3: the default five-segment assembly has six joints. -/
theorem c3_joint_count_invariant_witness :
    (GameManager.spawnRopeWithTreasure 0 .left .gold
        GameManager.defaultRopeConfig).joints.length
      = (GameManager.spawnRopeWithTreasure 0 .left .gold
          GameManager.defaultRopeConfig).segments.length + 1 :=
  (c3_joint_count_invariant 0 .left .gold GameManager.defaultRopeConfig
      (by decide)).1.1

/-- The camera ray through the cached hand position of the C10 scene
misses the scene's only segment: the segment sits 3/10 world units off
the ray's crossing of the play plane, more than its 1/20 radius. -/
theorem rayMissC10seg : ¬ rayThroughPointHits cameraC10 handPosC10 segC10 := by
  rintro ⟨t, ht0, hmem⟩
  rw [pointInSegmentMesh] at hmem
  obtain ⟨hy, hxz⟩ := hmem
  simp only [cameraC10, handPosC10, segC10] at hxz
  norm_num at hxz
  nlinarith [sq_nonneg (5 - 5 * t)]

/-- Every segment of every rope of the C10 scene is missed by the camera
ray through the cached hand position. -/
theorem rayMissAllC10 :
    ∀ r ∈ [ropeC10], ∀ s ∈ r.segments,
      ¬ rayThroughPointHits cameraC10 handPosC10 s := by
  intro r hr s hs
  have hr1 : r = ropeC10 := List.mem_singleton.mp hr
  subst hr1
  have hs2 : s ∈ [segC10] := hs
  have hs1 : s = segC10 := List.mem_singleton.mp hs2
  subst hs1
  exact rayMissC10seg

/-- The all-miss oracle is faithful to the source's raycast on the C10
scene. -/
theorem rayFaithfulC10 :
    RayFaithfulAt cameraC10 handPosC10 [ropeC10] (rayMissOracle handPosC10) := by
  intro r hr
  refine ⟨⟨fun _ s hs => rayMissAllC10 r hr s hs, fun _ => rfl⟩, fun i hi => ?_⟩
  exact absurd hi (by simp [rayMissOracle])

/-- When the frame's hit test reports no hit on any assembly, the cut
loop is a no-op: same collection, no CutResult. -/
theorem cutRopesFirstHit_of_no_hit (hit : RopeWithTreasure → Option ℕ) :
    ∀ ropes, (∀ r ∈ ropes, hit r = none) →
      GameManager.cutRopesFirstHit hit ropes = (ropes, none) := by
  intro ropes
  induction ropes with
  | nil => intro _; rfl
  | cons rope rest ih =>
      intro hall
      have hrest := ih (fun r hr => hall r (List.mem_cons_of_mem _ hr))
      have hhead := hall rope (List.mem_cons_self _ _)
      by_cases hc : rope.isCut = true
      · simp [GameManager.cutRopesFirstHit, hc, hrest]
      · simp [GameManager.cutRopesFirstHit, hc, hhead, hrest]

/-- The spec's sphere test does intersect the C10 segment: it lies 3/10
from the hand position, within the 1/2 + 1/20 reach of the sphere against
the capsule. -/
theorem sphereHitC10seg : sphereHitSegment handPosC10 (1/2) segC10 := by
  rw [sphereHitSegment]
  have h1 : distSqToSegmentAxis handPosC10 segC10 = 9/100 := by
    rw [distSqToSegmentAxis]
    norm_num [handPosC10, segC10]
  rw [h1]
  norm_num [segC10]

/-- Counterexample for C10: a concrete scene on which the gesture path's
actual resolution and the sphere test the claim describes disagree. The
camera sits at (0,0,5), the cached hand position at the origin, and the
one uncut assembly's only segment at (3/10, 0, 0) — within the 0.5
sphere, off the camera ray. With a hit oracle faithful to the source's
raycast, handleVCloseAction performs no cut and changes nothing, while
the sphere-at-point test of the claim reports segment 0 hit and the same
cut loop driven by it would cut the rope: the gesture resolution is not
the sphere test. -/
theorem cutRopesFirstHit_singleton_hit (hit : RopeWithTreasure → Option ℕ)
    (r : RopeWithTreasure) (i : ℕ) (hc : r.isCut = false)
    (hh : hit r = some i) (hlt : i < r.joints.length) :
    (GameManager.cutRopesFirstHit hit [r]).2
      = some { success := true, ropeId := r.id, segmentIndex := i,
               treasure := r.treasure } := by
  simp [GameManager.cutRopesFirstHit, hc, hh, hlt]

theorem c10_counterexample :
    RayFaithfulAt cameraC10 handPosC10 [ropeC10] (rayMissOracle handPosC10) ∧
    GameManager.handleVCloseAction rayMissOracle (some handPosC10) [ropeC10]
      = ([ropeC10], none) ∧
    sphereHitSegmentsIdx handPosC10 (1/2) ropeC10.segments = some 0 ∧
    (GameManager.cutRopesFirstHit
        (fun r => sphereHitSegmentsIdx handPosC10 (1/2) r.segments) [ropeC10]).2
      = some { success := true, ropeId := 0, segmentIndex := 0,
               treasure := getTreasureConfig .gold } := by
  have hsidx : sphereHitSegmentsIdx handPosC10 (1/2) ropeC10.segments = some 0 := by
    show (if sphereHitSegment handPosC10 (1/2) segC10 then some 0
          else (sphereHitSegmentsIdx handPosC10 (1/2) []).map (· + 1)) = some 0
    rw [if_pos sphereHitC10seg]
  have hcut0 : (0 : ℕ) < ropeC10.joints.length := by
    show (0 : ℕ) < 2
    omega
  exact ⟨rayFaithfulC10, rfl, hsidx,
    cutRopesFirstHit_singleton_hit _ ropeC10 0 rfl hsidx hcut0⟩

/-- C10 (amended): gesture-cut resolution. With no cached position for
the triggering hand, handleVCloseAction is a no-op with no state change;
with a cached position p it resolves through cutRopeAtPoint, i.e. the
pointer path's raycast hit test fed with the camera ray through p (not a
sphere-at-point test); in particular, whenever that camera ray misses
every segment of every assembly, no cut happens and the collection is
unchanged. -/
theorem c10_gesture_resolves_by_ray (hit : Vec3 → RopeWithTreasure → Option ℕ)
    (ropes : List RopeWithTreasure) :
    GameManager.handleVCloseAction hit none ropes = (ropes, none) ∧
    (∀ p, GameManager.handleVCloseAction hit (some p) ropes
        = GameManager.cutRopeAtPoint hit p ropes) ∧
    (∀ (camera p : Vec3), RayFaithfulAt camera p ropes (hit p) →
       (∀ r ∈ ropes, ∀ s ∈ r.segments, ¬ rayThroughPointHits camera p s) →
       GameManager.handleVCloseAction hit (some p) ropes = (ropes, none)) := by
  refine ⟨rfl, fun p => rfl, fun camera p hfaith hmiss => ?_⟩
  have hnone : ∀ r ∈ ropes, hit p r = none := by
    intro r hr
    exact ((hfaith r hr).1).mpr (hmiss r hr)
  exact cutRopesFirstHit_of_no_hit (hit p) ropes hnone

/-- Witness for C10 (amended): on the C10 scene the faithful ray oracle
yields a no-op gesture resolution. -/
theorem c10_gesture_resolves_by_ray_witness :
    GameManager.handleVCloseAction rayMissOracle (some handPosC10) [ropeC10]
      = ([ropeC10], none) :=
  (c10_gesture_resolves_by_ray rayMissOracle [ropeC10]).2.2 cameraC10 handPosC10
    rayFaithfulC10 rayMissAllC10
